import Mathlib

/-!
Shallow embedding of the zxtape repository's core (src/main.rs, with the
ArrayParams variant of src/newer_main.rs also modelled where a claim cites it).

Bytes are modelled as natural numbers; the byte stream is a `List ℕ`, and each
reader returns the value read together with the remaining stream, or a
`ParseError`.  Rust `io::Error` values arising from short reads are modelled as
`ParseError.UnexpectedEndOfInput`; the `Error::new(InvalidData, ...)` values
constructed in the source are modelled by the dedicated variants below; a Rust
panic (the `unwrap()` of a `None` header in `Block::from_bytes`, or a `u16`
subtraction overflow in a debug build) is modelled as `ParseError.Panic`, a
marker distinct from every typed error return.
-/

namespace ZXTape

/-- Error outcomes of the parsing layer.  `Panic` marks a Rust panic (process
abort), which is not a typed `io::Result` error return. -/
inductive ParseError where
  | UnexpectedEndOfInput
  | InvalidFlag
  | InvalidHeaderType
  | InvalidArrayParams
  | Panic
deriving DecidableEq, Repr

/-- Read one byte; `reader.read_u8()`. -/
def read_u8 : List ℕ → Except ParseError (ℕ × List ℕ)
  | [] => .error .UnexpectedEndOfInput
  | b :: l => .ok (b, l)

/-- Read a little-endian u16; `reader.read_u16::<LittleEndian>()`. -/
def read_u16_le (l : List ℕ) : Except ParseError (ℕ × List ℕ) :=
  match read_u8 l with
  | .error e => .error e
  | .ok (lo, l) =>
    match read_u8 l with
    | .error e => .error e
    | .ok (hi, l) => .ok (lo + 256 * hi, l)

/-- Read exactly `n` bytes; `reader.read_exact(&mut buf)` on an `n`-byte
buffer. -/
def read_exact (n : ℕ) (l : List ℕ) : Except ParseError (List ℕ × List ℕ) :=
  if n ≤ l.length then .ok (l.take n, l.drop n) else .error .UnexpectedEndOfInput

/-- Rust enum `FlagEnum` of src/main.rs. -/
inductive FlagEnum where
  | Header
  | Data
deriving DecidableEq, Repr

/-- Model of `FlagEnum::from_u8`. -/
def FlagEnum.from_u8 : ℕ → Option FlagEnum
  | 0x00 => some .Header
  | 0xFF => some .Data
  | _ => none

/-- Rust enum `HeaderTypeEnum` of src/main.rs. -/
inductive HeaderTypeEnum where
  | Program
  | NumArray
  | CharArray
  | Bytes
deriving DecidableEq, Repr

/-- Model of `HeaderTypeEnum::from_u8`. -/
def HeaderTypeEnum.from_u8 : ℕ → Option HeaderTypeEnum
  | 0x00 => some .Program
  | 0x01 => some .NumArray
  | 0x02 => some .CharArray
  | 0x03 => some .Bytes
  | _ => none

/-- Rust struct `ProgramParams` of src/main.rs. -/
structure ProgramParams where
  autostart_line : ℕ
  len_program : ℕ
deriving DecidableEq, Repr

/-- Model of `ProgramParams::from_bytes`: two little-endian u16 reads. -/
def ProgramParams.from_bytes (l : List ℕ) :
    Except ParseError (ProgramParams × List ℕ) :=
  match read_u16_le l with
  | .error e => .error e
  | .ok (a, l) =>
    match read_u16_le l with
    | .error e => .error e
    | .ok (p, l) => .ok (⟨a, p⟩, l)

/-- Rust struct `BytesParams` of src/main.rs; the 2-byte array field is a 2-element
list. -/
structure BytesParams where
  start_address : ℕ
  reserved : List ℕ
deriving DecidableEq, Repr

/-- Model of `BytesParams::from_bytes` of src/main.rs: a u16 LE then two raw bytes (the
zero-check in the source is commented out). -/
def BytesParams.from_bytes (l : List ℕ) :
    Except ParseError (BytesParams × List ℕ) :=
  match read_u16_le l with
  | .error e => .error e
  | .ok (sa, l) =>
    match read_u8 l with
    | .error e => .error e
    | .ok (r0, l) =>
      match read_u8 l with
      | .error e => .error e
      | .ok (r1, l) => .ok (⟨sa, [r0, r1]⟩, l)

/-- Rust struct `ArrayParams` of src/main.rs. -/
structure ArrayParams where
  reserved : ℕ
  var_name : ℕ
  reserved1 : List ℕ
deriving DecidableEq, Repr

/-- Model of `ArrayParams::from_bytes` of src/main.rs: reads `reserved`, `var_name` and
two reserved bytes, then returns `Err(InvalidData)` unless BOTH trailing
reserved bytes are zero (`reserved1.iter().all(|&x| x == 0)`). -/
def ArrayParams.from_bytes (l : List ℕ) :
    Except ParseError (ArrayParams × List ℕ) :=
  match read_u8 l with
  | .error e => .error e
  | .ok (r, l) =>
    match read_u8 l with
    | .error e => .error e
    | .ok (v, l) =>
      match read_u8 l with
      | .error e => .error e
      | .ok (b0, l) =>
        match read_u8 l with
        | .error e => .error e
        | .ok (b1, l) =>
          if b0 = 0 ∧ b1 = 0 then .ok (⟨r, v, [b0, b1]⟩, l)
          else .error .InvalidArrayParams

/-- Rust struct `ArrayParams` as laid out by src/newer_main.rs (same fields). -/
structure ArrayParamsN where
  reserved : ℕ
  var_name : ℕ
  reserved1 : List ℕ
deriving DecidableEq, Repr

/-- Model of `ArrayParams::new` of src/newer_main.rs: reads the two `reserved1` bytes
FIRST, then `reserved` and `var_name`; the `if reserved1 != [0x00, 0x80]`
branch in the source has an empty body (a comment only), so no value of the
reserved bytes ever fails. -/
def ArrayParamsN.new (l : List ℕ) :
    Except ParseError (ArrayParamsN × List ℕ) :=
  match read_exact 2 l with
  | .error e => .error e
  | .ok (r1, l) =>
    match read_u8 l with
    | .error e => .error e
    | .ok (r, l) =>
      match read_u8 l with
      | .error e => .error e
      | .ok (v, l) => .ok (⟨r, v, r1⟩, l)

/-- Rust enum `BlockParams` of src/main.rs. -/
inductive BlockParams where
  | Program (p : ProgramParams)
  | Array (a : ArrayParams)
  | Bytes (b : BytesParams)
deriving DecidableEq, Repr

/-- Rust struct `Header` of src/main.rs; the 10-byte filename array is a 10-element
list. -/
structure Header where
  header_type : HeaderTypeEnum
  filename : List ℕ
  len_data : ℕ
  params : Option BlockParams
  checksum : ℕ
deriving DecidableEq, Repr

/-- Model of `Header::from_bytes` of src/main.rs: a header-type byte (unmapped value ⇒
`Err(InvalidData, "Invalid header type")`), 10 filename bytes, a u16 LE data
length, 4 parameter bytes dispatched on the header type, and one checksum byte
read verbatim. -/
def Header.from_bytes (l : List ℕ) : Except ParseError (Header × List ℕ) :=
  match read_u8 l with
  | .error e => .error e
  | .ok (t, l) =>
    match HeaderTypeEnum.from_u8 t with
    | none => .error .InvalidHeaderType
    | some header_type =>
      match read_exact 10 l with
      | .error e => .error e
      | .ok (filename, l) =>
        match read_u16_le l with
        | .error e => .error e
        | .ok (len_data, l) =>
          match
            (match header_type with
             | .Program =>
               match ProgramParams.from_bytes l with
               | .error e => .error e
               | .ok (p, l) => .ok (some (BlockParams.Program p), l)
             | .NumArray | .CharArray =>
               match ArrayParams.from_bytes l with
               | .error e => .error e
               | .ok (a, l) => .ok (some (BlockParams.Array a), l)
             | .Bytes =>
               match BytesParams.from_bytes l with
               | .error e => .error e
               | .ok (b, l) => .ok (some (BlockParams.Bytes b), l) :
              Except ParseError (Option BlockParams × List ℕ))
          with
          | .error e => .error e
          | .ok (params, l) =>
            match read_u8 l with
            | .error e => .error e
            | .ok (checksum, l) =>
              .ok (⟨header_type, filename, len_data, params, checksum⟩, l)

/-- Rust struct `Block` of src/main.rs. -/
structure Block where
  len_block : ℕ
  flag : FlagEnum
  header : Option Header
  data : Option (List ℕ)
  headerless_data : Option (List ℕ)
deriving DecidableEq, Repr

/-- Model of `Block::from_bytes` of src/main.rs.  After the u16 LE length and the flag
byte (unmapped flag ⇒ `Err(InvalidData, "Invalid flag")`):
* if `len_block == 0x13 && flag == Header`, a `Header` is decoded (the inner
  `match flag` in the source always takes its `Header` arm under this guard);
* if `len_block == 0x13`, the source allocates `header.as_ref().unwrap().len_data + 4`
  bytes and `read_exact`s them: when `header` is `None` (i.e. the flag was
  `Data`) the `unwrap()` panics, modelled as `.error .Panic`;
* if `flag == Data`, `len_block - 1` bytes are read as `headerless_data`; for
  `len_block == 0` the `u16` subtraction overflows, which panics in a debug
  build, modelled as `.error .Panic`.

The result pairs the `Block` with the bytes remaining in the reader. -/
def Block.from_bytes (l : List ℕ) : Except ParseError (Block × List ℕ) :=
  match read_u16_le l with
  | .error e => .error e
  | .ok (len_block, l) =>
    match read_u8 l with
    | .error e => .error e
    | .ok (flagByte, l) =>
      match FlagEnum.from_u8 flagByte with
      | none => .error .InvalidFlag
      | some flag =>
        match
          (if len_block = 0x13 ∧ flag = FlagEnum.Header then
             match Header.from_bytes l with
             | .error e => .error e
             | .ok (h, l) => .ok (some h, l)
           else .ok (none, l) :
            Except ParseError (Option Header × List ℕ))
        with
        | .error e => .error e
        | .ok (header, l) =>
          match
            (if len_block = 0x13 then
               match header with
               | none => .error .Panic
               | some h =>
                 match read_exact (h.len_data + 4) l with
                 | .error e => .error e
                 | .ok (d, l) => .ok (some d, l)
             else .ok (none, l) :
              Except ParseError (Option (List ℕ) × List ℕ))
          with
          | .error e => .error e
          | .ok (data, l) =>
            match
              (match flag with
               | .Header => .ok (none, l)
               | .Data =>
                 if len_block = 0 then .error .Panic
                 else
                   match read_exact (len_block - 1) l with
                   | .error e => .error e
                   | .ok (d, l) => .ok (some d, l) :
                Except ParseError (Option (List ℕ) × List ℕ))
            with
            | .error e => .error e
            | .ok (headerless_data, l) =>
              .ok (⟨len_block, flag, header, data, headerless_data⟩, l)

/-- The parse loop of `main` in src/main.rs, fuelled by the input length:
`while !reader.fill_buf()?.is_empty()` stops normally (no error) when the
stream is exhausted at a block boundary, else parses another block and
propagates its errors.  `Block.from_bytes` consumes at least one byte whenever
it succeeds, so fuel equal to the input length never runs out; the fuel-0
fallback is unreachable. -/
def parseAllAux : ℕ → List ℕ → Except ParseError (List Block)
  | _, [] => .ok []
  | 0, _ :: _ => .error .UnexpectedEndOfInput
  | fuel + 1, l =>
    match Block.from_bytes l with
    | .error e => .error e
    | .ok (b, rest) =>
      match parseAllAux fuel rest with
      | .error e => .error e
      | .ok bs => .ok (b :: bs)

/-- Model of the block loop of `main`: parse blocks until the input is exhausted. -/
def parseAll (l : List ℕ) : Except ParseError (List Block) :=
  parseAllAux l.length l

/-- One bit's square-wave burst as emitted by `convert_bits_to_pulses` of
src/main.rs: the selected frequency and duration constants and the number of
amplitude samples pushed for the bit.  The source pushes `sample_count`
individual `±1.0` amplitudes per bit; no verified property concerns the
amplitude values themselves, so the embedding records each bit's burst at this
granularity.  `sample_count` is `(duration / 1_000_000.0) * sample_rate as f32`
truncated by `as usize`; at the durations 855 and 1710 and the rates appearing
in the theorems below the `f32` computation is exact enough that the truncation
equals the natural-number floor `durationUs * rate / 1000000`. -/
structure Pulse where
  freq : ℕ
  durationUs : ℕ
  sampleCount : ℕ
deriving DecidableEq, Repr

/-- The inner per-byte loop of `convert_bits_to_pulses`: for `i` in `0..8`,
take bit `(byte >> i) & 1` and select `(1500 Hz, 855 µs)` for a 0 bit,
`(3000 Hz, 1710 µs)` for a 1 bit. -/
def encodeByte (rate b : ℕ) : List Pulse :=
  (List.range 8).map fun i =>
    if (b >>> i) % 2 = 0 then
      { freq := 1500, durationUs := 855, sampleCount := 855 * rate / 1000000 }
    else
      { freq := 3000, durationUs := 1710, sampleCount := 1710 * rate / 1000000 }

/-- Model of `convert_bits_to_pulses` of src/main.rs at pulse granularity: the outer
loop pushes each byte's bursts onto the growing `pulses` vector. -/
def convert_bits_to_pulses (data : List ℕ) (rate : ℕ) : List Pulse :=
  data.foldl (fun pulses b => pulses ++ encodeByte rate b) []

/-- The sample-count formula the spec states: `round(duration_µs / 1_000_000 *
sample_rate)`, as rounding to the nearest integer (ties up).  This definition
follows the spec's words, for comparison with the source's truncation; it is
not part of the source embedding. -/
def specRoundedSampleCount (durationUs rate : ℕ) : ℕ :=
  (durationUs * rate + 500000) / 1000000

/-- The 18 header-payload bytes of the spec's §8 scenario (after the two
length bytes and the flag byte): kind `0x00`, filename `"TEST"` plus six zero
bytes, data length `0x0005` LE, parameter bytes `0x00 0x0A 0x00 0x00`,
checksum `0xAA`. -/
def c6payload : List ℕ :=
  [0x00, 84, 69, 83, 84, 0, 0, 0, 0, 0, 0, 0x05, 0x00, 0x00, 0x0A, 0x00, 0x00, 0xAA]

/-- The scenario's full block prefix: length `0x0013` LE, flag `0x00`, then
the 18 header-payload bytes. -/
def c6block : List ℕ := [0x13, 0x00, 0x00] ++ c6payload

/-- The header that `Header.from_bytes` decodes from `c6payload`. -/
def c6header : Header :=
  { header_type := .Program
    filename := [84, 69, 83, 84, 0, 0, 0, 0, 0, 0]
    len_data := 5
    params := some (.Program { autostart_line := 2560, len_program := 0 })
    checksum := 0xAA }

/-- Unfolding one parse step: with nonzero fuel and a nonempty stream the loop
parses one block and recurses. -/
theorem parseAllAux_step (fuel a : ℕ) (l : List ℕ) :
    parseAllAux (fuel + 1) (a :: l) =
      match Block.from_bytes (a :: l) with
      | .error e => .error e
      | .ok (b, rest) =>
        match parseAllAux fuel rest with
        | .error e => .error e
        | .ok bs => .ok (b :: bs) := rfl

/-- If the first block of a nonempty stream fails to parse, the whole loop
fails with that error. -/
theorem parseAll_cons_error {a : ℕ} {l : List ℕ} {e : ParseError}
    (h : Block.from_bytes (a :: l) = .error e) : parseAll (a :: l) = .error e := by
  have hstep : parseAll (a :: l) = parseAllAux (l.length + 1) (a :: l) := rfl
  rw [hstep, parseAllAux_step, h]

/-- C1: the claim says that after decoding a Header the parser reads exactly
`header.declared_data_length` companion bytes, with no `+4` adjustment.  The
code reads `len_data + 4` bytes: on the scenario header (`len_data = 5`)
followed by exactly 5 payload bytes it fails with `UnexpectedEndOfInput`, and
followed by 9 bytes it succeeds and stores all 9 as the companion payload. -/
theorem c1_companion_read_adds_four :
    Block.from_bytes (c6block ++ [1, 2, 3, 4, 5]) = .error .UnexpectedEndOfInput ∧
    Block.from_bytes (c6block ++ [1, 2, 3, 4, 5, 6, 7, 8, 9]) =
      .ok ({ len_block := 19, flag := .Header, header := some c6header,
             data := some [1, 2, 3, 4, 5, 6, 7, 8, 9],
             headerless_data := none }, []) :=
  ⟨rfl, rfl⟩

/-- C2 counterexample: a Data-flagged block with `declared_length = 19`
panics (the `unwrap()` of the absent header), so the parser does not return a
`declared_length - 1`-byte payload for every Data block. -/
theorem c2_counterexample_len19_data_panics :
    Block.from_bytes (0x13 :: 0x00 :: 0xFF :: List.replicate 18 0xAA) =
      .error .Panic := rfl

/-- C2 amended: for every Data-flagged block whose declared length is neither
0 (u16 underflow panic) nor 19 (the `unwrap` panic), the parser returns a raw
payload of exactly `declared_length - 1` bytes and consumes exactly those
bytes. -/
theorem c2_data_block_payload_len_minus_one (lo hi : ℕ) (body : List ℕ)
    (h0 : lo + 256 * hi ≠ 0) (h19 : lo + 256 * hi ≠ 19)
    (hbody : lo + 256 * hi - 1 ≤ body.length) :
    Block.from_bytes (lo :: hi :: 0xFF :: body) =
      .ok ({ len_block := lo + 256 * hi, flag := .Data, header := none,
             data := none,
             headerless_data := some (body.take (lo + 256 * hi - 1)) },
           body.drop (lo + 256 * hi - 1)) := by
  simp [Block.from_bytes, read_u16_le, read_u8, read_exact, FlagEnum.from_u8,
    h0, h19, hbody]

/-- C2 witness: a 3-byte Data block with body `[7, 8, 9]` yields the 2-byte
payload `[7, 8]` and leaves `[9]` unconsumed. -/
theorem c2_witness :
    Block.from_bytes [3, 0, 0xFF, 7, 8, 9] =
      .ok ({ len_block := 3, flag := .Data, header := none, data := none,
             headerless_data := some [7, 8] }, [9]) := by
  have h := c2_data_block_payload_len_minus_one 3 0 [7, 8, 9]
    (by decide) (by decide) (by decide)
  simpa using h

/-- C3: in the degraded branch (flag `Header` with `declared_length ≠ 19`) the
parser consumes only the flag byte of the 5-byte block body, leaving the other
4 body bytes `[0xAB, 0xCD, 0xEF, 0x12]` unconsumed, so the next call starts
inside this block's body instead of at the next length prefix. -/
theorem c3_degraded_branch_consumes_one_body_byte :
    Block.from_bytes [0x05, 0x00, 0x00, 0xAB, 0xCD, 0xEF, 0x12] =
      .ok ({ len_block := 5, flag := .Header, header := none, data := none,
             headerless_data := none }, [0xAB, 0xCD, 0xEF, 0x12]) := rfl

/-- C10: for every input whose next block has declared length 19 and flag byte
`0xFF` (Data), `Block::from_bytes` hits the `unwrap()` of a `None` header and
panics (modelled by the `Panic` marker, distinct from every typed error
return), whatever bytes follow. -/
theorem c10_len19_data_flag_panics (rest : List ℕ) :
    Block.from_bytes (0x13 :: 0x00 :: 0xFF :: rest) = .error .Panic := rfl

/-- C4 counterexample: the claim puts the 7 zero pulses first, but the first
pulse that encoding the byte `0b00000001` at 44100 Hz emits is the one-bit
pulse, at 3000 Hz rather than the zero pulse's 1500 Hz (bit 0 is read first
and bit 0 of `0b00000001` is 1). -/
theorem c4_counterexample_first_pulse_is_one_bit :
    ((convert_bits_to_pulses [1] 44100).head?.map Pulse.freq) = some 3000 ∧
    (3000 : ℕ) ≠ 1500 := ⟨rfl, by decide⟩

/-- C4 amended: encoding the single byte `0b00000001` at 44100 Hz produces 8
bit-pulses: 1 "one" pulse (1710 µs constant at 3000 Hz, 75 samples) first,
followed by 7 "zero" pulses (855 µs constant at 1500 Hz, 37 samples each),
since bits are read least-significant-bit-first. -/
theorem c4_single_one_byte_pulse_order :
    convert_bits_to_pulses [1] 44100 =
      { freq := 3000, durationUs := 1710, sampleCount := 75 } ::
        List.replicate 7 { freq := 1500, durationUs := 855, sampleCount := 37 } := rfl

/-- C5 counterexample: at 44100 Hz a zero bit is emitted as 37 samples (the
truncation of 855 µs · 44100 Hz / 10⁶ = 37.7055), while the spec's rounding
formula gives 38. -/
theorem c5_counterexample_truncation_not_rounding :
    ((convert_bits_to_pulses [0] 44100).head?.map Pulse.sampleCount) = some 37 ∧
    specRoundedSampleCount 855 44100 = 38 ∧ (37 : ℕ) ≠ 38 :=
  ⟨rfl, rfl, by decide⟩

/-- C5 amended: at 44100 Hz the encoder emits, for every bit of every byte,
`floor(duration_µs · 44100 / 10⁶)` samples — the sample count is truncated,
not rounded: 37 samples per 0 bit and 75 samples per 1 bit. -/
theorem c5_sample_count_at_44100 (b i : ℕ) (hi : i < 8) :
    ((convert_bits_to_pulses [b] 44100)[i]?).map Pulse.sampleCount =
      some (if (b >>> i) % 2 = 0 then 37 else 75) := by
  have hconv : convert_bits_to_pulses [b] 44100 = encodeByte 44100 b := by
    simp [convert_bits_to_pulses]
  rw [hconv]
  rcases Nat.eq_zero_or_pos ((b >>> i) % 2) with h | h
  · simp [encodeByte, List.getElem?_map, List.getElem?_range, hi, h]
  · have h1 : (b >>> i) % 2 = 1 := by omega
    simp [encodeByte, List.getElem?_map, List.getElem?_range, hi, h1]

/-- C5 witness: the first pulse of the byte `0b00000001` at 44100 Hz (a one
bit) has 75 samples. -/
theorem c5_witness :
    ((convert_bits_to_pulses [1] 44100)[0]?).map Pulse.sampleCount = some 75 := by
  have h := c5_sample_count_at_44100 1 0 (by decide)
  simpa using h

/-- C6 counterexample: the scenario's parameter bytes `0x00 0x0A` decode
little-endian to `autostart_line = 2560`, not 10; the rest of the decoded
header is as the claim states. -/
theorem c6_counterexample_autostart_not_ten :
    Header.from_bytes c6payload = .ok (c6header, []) ∧
    c6header.params ≠ some (.Program { autostart_line := 10, len_program := 0 }) :=
  ⟨rfl, by decide⟩

/-- C6 amended: the scenario byte sequence decodes to a Program header with
`autostart_line = 2560` (bytes `0x00 0x0A` little-endian), `program_length =
0`, `declared_data_length = 5`, filename `"TEST"` followed by six zero bytes,
and checksum `0xAA`. -/
theorem c6_scenario_header_decode :
    Header.from_bytes
        [0x00, 84, 69, 83, 84, 0, 0, 0, 0, 0, 0, 0x05, 0x00, 0x00, 0x0A, 0x00, 0x00, 0xAA] =
      .ok ({ header_type := .Program,
             filename := [84, 69, 83, 84, 0, 0, 0, 0, 0, 0],
             len_data := 5,
             params := some (.Program { autostart_line := 2560, len_program := 0 }),
             checksum := 0xAA }, []) := rfl

/-- C7 counterexample: `ArrayParams::from_bytes` of src/main.rs does not
proceed leniently on a suspect `reserved2`: it returns a hard `InvalidData`
error both for `[0x01, 0x02]` (differing from `{0x00, 0x80}`) and even for the
conventional well-formed `[0x00, 0x80]` itself. -/
theorem c7_counterexample_hard_failure :
    ArrayParams.from_bytes [0xAA, 0x41, 0x01, 0x02] = .error .InvalidArrayParams ∧
    ArrayParams.from_bytes [0xAA, 0x41, 0x00, 0x80] = .error .InvalidArrayParams :=
  ⟨rfl, rfl⟩

/-- C7 amended: neither variant exposes a configurable policy.  src/main.rs is
hardcoded strict with a blanket zero check — it fails with `InvalidData`
unless both trailing reserved bytes are zero (rejecting even the conventional
`[0x00, 0x80]`) — while src/newer_main.rs is hardcoded lenient — it always
succeeds, whatever the reserved bytes hold. -/
theorem c7_no_configurable_policy (r v a b : ℕ) :
    ArrayParams.from_bytes [r, v, a, b] =
      (if a = 0 ∧ b = 0 then
         .ok ({ reserved := r, var_name := v, reserved1 := [a, b] }, [])
       else .error .InvalidArrayParams) ∧
    ArrayParamsN.new [a, b, r, v] =
      .ok ({ reserved := r, var_name := v, reserved1 := [a, b] }, []) := by
  refine ⟨?_, rfl⟩
  by_cases h : a = 0 ∧ b = 0 <;> simp [ArrayParams.from_bytes, read_u8, h]

/-- C9: an empty container yields immediate normal termination with zero
blocks, and a container holding a valid 19-byte Program header block whose
companion payload is truncated (fewer than its `declared_data_length = 5`
bytes remain) fails with `UnexpectedEndOfInput`. -/
theorem c9_empty_end_truncated_payload_error :
    parseAll [] = .ok [] ∧
    ∀ rest : List ℕ, rest.length < 5 →
      parseAll (c6block ++ rest) = .error .UnexpectedEndOfInput := by
  refine ⟨rfl, fun rest hrest => ?_⟩
  have hshort : ¬ 9 ≤ rest.length := by omega
  have herr : Block.from_bytes (c6block ++ rest) = .error .UnexpectedEndOfInput := by
    simp [c6block, c6payload, Block.from_bytes, Header.from_bytes,
      ProgramParams.from_bytes, read_u16_le, read_u8, read_exact,
      FlagEnum.from_u8, HeaderTypeEnum.from_u8, hshort]
  exact parseAll_cons_error herr

/-- C9 witness: the scenario header block followed by only 2 companion bytes
fails with `UnexpectedEndOfInput`, while the empty container parses to zero
blocks. -/
theorem c9_witness :
    parseAll [] = .ok [] ∧
    parseAll (c6block ++ [1, 2]) = .error .UnexpectedEndOfInput :=
  ⟨c9_empty_end_truncated_payload_error.1,
   c9_empty_end_truncated_payload_error.2 [1, 2] (by decide)⟩

/-- The encoder's accumulator fold is the concatenation of the per-byte
bursts. -/
theorem convert_eq_join (data : List ℕ) (rate : ℕ) :
    convert_bits_to_pulses data rate = (data.map (encodeByte rate)).flatten := by
  suffices h : ∀ acc : List Pulse,
      data.foldl (fun pulses b => pulses ++ encodeByte rate b) acc =
        acc ++ (data.map (encodeByte rate)).flatten by
    simpa [convert_bits_to_pulses] using h []
  induction data with
  | nil => intro acc; simp
  | cons b tl ih => intro acc; simp [ih, List.append_assoc]

/-- Each byte contributes exactly 8 bit-bursts. -/
theorem encodeByte_length (rate b : ℕ) : (encodeByte rate b).length = 8 := by
  simp [encodeByte]

/-- The `i`-th burst of a byte's encoding is selected by bit `i` of the byte,
taken least-significant-bit-first. -/
theorem encodeByte_getElem (rate b i : ℕ) (hi : i < 8) :
    (encodeByte rate b)[i]? =
      some (if (b >>> i) % 2 = 0 then
              { freq := 1500, durationUs := 855, sampleCount := 855 * rate / 1000000 }
            else
              { freq := 3000, durationUs := 1710, sampleCount := 1710 * rate / 1000000 }) := by
  simp [encodeByte, List.getElem?_map, List.getElem?_range, hi]

/-- C8: for every payload, every byte position `j` and every bit index
`i < 8`, pulse number `8·j + i` of the encoder's output is determined by bit
`i` (least-significant-bit-first) of byte `j` alone: `(1500 Hz, 855 µs)` when
the bit is 0 and `(3000 Hz, 1710 µs)` when it is 1, with the sample count
depending only on that constant duration and the sample rate — never on the
data in any other way. -/
theorem c8_lsb_first_constant_selection (data : List ℕ) (rate j i : ℕ)
    (hj : j < data.length) (hi : i < 8) :
    (convert_bits_to_pulses data rate)[8 * j + i]? =
      some (if (data.get ⟨j, hj⟩ >>> i) % 2 = 0 then
              { freq := 1500, durationUs := 855, sampleCount := 855 * rate / 1000000 }
            else
              { freq := 3000, durationUs := 1710, sampleCount := 1710 * rate / 1000000 }) := by
  rw [convert_eq_join]
  induction data generalizing j with
  | nil => exact absurd hj (Nat.not_lt_zero j)
  | cons b tl ih =>
    cases j with
    | zero =>
      have hlt : 8 * 0 + i < (encodeByte rate b).length := by
        rw [encodeByte_length]; omega
      rw [List.map_cons, List.flatten_cons, List.getElem?_append, if_pos hlt]
      simpa using encodeByte_getElem rate b i hi
    | succ j' =>
      have hj' : j' < tl.length := by
        simpa [Nat.succ_lt_succ_iff] using hj
      have hge : (encodeByte rate b).length ≤ 8 * (j' + 1) + i := by
        rw [encodeByte_length]; omega
      rw [List.map_cons, List.flatten_cons, List.getElem?_append,
        if_neg (not_lt.mpr hge)]
      have hidx : 8 * (j' + 1) + i - (encodeByte rate b).length = 8 * j' + i := by
        rw [encodeByte_length]; omega
      rw [hidx]
      simpa using ih j' hj'

/-- C8 witness: pulse 1 of the byte `0b00000010` at 44100 Hz is the one-bit
pulse `(3000 Hz, 1710 µs, 75 samples)`. -/
theorem c8_witness :
    (convert_bits_to_pulses [2] 44100)[1]? =
      some { freq := 3000, durationUs := 1710, sampleCount := 75 } := by
  have h := c8_lsb_first_constant_selection [2] 44100 0 1 (by decide) (by decide)
  simpa using h

end ZXTape
